import Mathlib

/-!
Shallow embedding of the core pipeline of `src/main.ts` / `src/domain.ts`
(a Deno script that discovers repositories via a paginated code search,
deduplicates them by numeric id, enriches them with star counts from a
batched GraphQL query keyed by full name, filters by a star threshold and
reports them sorted descending by stars).

Network responses are oracle parameters: a discovery run is parametrised
by the response the server gives to each page request, and the enrichment
request by a single response value.  JavaScript `Map` objects are embedded
as association lists with `Map.set` / `Map.get` semantics (`set` on an
existing key updates the value in place, preserving the key's original
insertion position, which is what `Map` iteration order exposes).
Exceptions that escape a function are embedded as `Except.error`; console
logging is elided except where an effect trace is needed (the inter-page
delay), in which case the run also yields a list of effects.
-/

namespace GithubScraper

/-- `Repository` from `src/domain.ts`: the repository record shared by both
stages.  JS numbers carrying ids and star counts are embedded as `Int`. -/
structure Repository where
  id : Int
  name : String
  full_name : String
  stargazers_count : Int
  html_url : String
deriving DecidableEq

/-- `CodeSearchResultItem` from `src/domain.ts`: one item of a discovery
page, embedding the repository it was found in. -/
structure CodeSearchResultItem where
  name : String
  path : String
  repository : Repository
  html_url : String
deriving DecidableEq

/-- `Edge` from `src/domain.ts`: one edge of the GraphQL enrichment
response (flattened: the single `node` field is inlined). -/
structure Edge where
  nameWithOwner : String
  stargazerCount : Int
deriving DecidableEq

/-- JS `Map.prototype.set` on an association list: updating an existing key
keeps its position, a new key is appended (JS `Map` iteration order). -/
def mapSet {α β : Type} [DecidableEq α] : List (α × β) → α → β → List (α × β)
  | [], k, v => [(k, v)]
  | (k₀, v₀) :: m, k, v =>
    if k₀ = k then (k, v) :: m else (k₀, v₀) :: mapSet m k v

/-- JS `Map.prototype.get` on an association list. -/
def mapGet {α β : Type} [DecidableEq α] : List (α × β) → α → Option β
  | [], _ => none
  | (k₀, v₀) :: m, k => if k₀ = k then some v₀ else mapGet m k

/-! ## Discovery fetcher (`fetchRepositories`, src/main.ts lines 64-106) -/

/-- The response the discovery endpoint gives to one page request:
`transportFailure` = the `fetch` promise rejects, `httpError` =
`!response.ok` (with a parseable error body carrying `message`),
`malformed` = `response.json()` rejects or the decoded body lacks the
`items` array, `success` = a well-formed `CodeSearchResult` (only its
`items` matter to the loop; `total_count` is never read). -/
inductive PageResponse where
  | transportFailure
  | httpError (message : String)
  | malformed
  | success (items : List CodeSearchResultItem)
deriving DecidableEq

/-- An exception escaping `fetchRepositories` to `main`'s catch block. -/
inductive RunError where
  | transport
  | parse
deriving DecidableEq

/-- Observable effects of a discovery run, for ordering claims: a page
request (`fetch` for a given page number) and the fixed 1.5 s timer
(`await new Promise(resolve => setTimeout(resolve, 1500))`). -/
inductive Effect where
  | fetchPage (page : Nat)
  | delay
deriving DecidableEq

/-- `data.items.forEach(item => uniqueRepos.set(item.repository.id,
item.repository))` (src/main.ts lines 98-100): merge one page's items into
the deduplication map keyed by numeric id. -/
def processItems (m : List (Int × Repository)) (items : List CodeSearchResultItem) :
    List (Int × Repository) :=
  items.foldl (fun m item => mapSet m item.repository.id item.repository) m

/-- The `while (page <= 3)` loop of `fetchRepositories`, over the list of
page numbers still to visit (the loop counter runs 1, 2, 3).  Each
iteration fetches the current page; on `!response.ok` it breaks (the map
kept so far is returned); a rejected `fetch` or a malformed body throws out
of the function (there is no try/catch in `fetchRepositories`); on success
it merges the items, sleeps 1.5 s, and moves to the next page.  Returns
the final map (or the escaped exception) together with the effect trace. -/
def fetchGo (pages : Nat → PageResponse) :
    List Nat → List (Int × Repository) →
      Except RunError (List (Int × Repository)) × List Effect
  | [], m => (Except.ok m, [])
  | page :: rest, m =>
    match pages page with
    | PageResponse.transportFailure =>
      (Except.error RunError.transport, [Effect.fetchPage page])
    | PageResponse.httpError _ =>
      (Except.ok m, [Effect.fetchPage page])
    | PageResponse.malformed =>
      (Except.error RunError.parse, [Effect.fetchPage page])
    | PageResponse.success items =>
      let next := fetchGo pages rest (processItems m items)
      (next.1, Effect.fetchPage page :: Effect.delay :: next.2)

/-- One full discovery run: pages 1, 2, 3, starting from an empty
deduplication map. -/
def fetchRun (pages : Nat → PageResponse) :
    Except RunError (List (Int × Repository)) × List Effect :=
  fetchGo pages [1, 2, 3] []

/-- `fetchRepositories` (src/main.ts lines 64-106): the list
`Array.from(uniqueRepos.values())`, or the exception that escaped. -/
def fetchRepositories (pages : Nat → PageResponse) :
    Except RunError (List Repository) :=
  (fetchRun pages).1.map (fun m => m.map Prod.snd)

/-- The effect trace of a discovery run. -/
def fetchTrace (pages : Nat → PageResponse) : List Effect :=
  (fetchRun pages).2

/-! ## Enrichment fetcher (`enrichWithStarCount`, src/main.ts lines 108-176) -/

/-- The outcome of the single GraphQL request: `transportFailure` = `fetch`
rejects (caught by the try/catch), `httpError` = `!response.ok`,
`parseError` = `response.json()` rejects or the body lacks the expected
shape (also caught), `success` = a well-formed `GraphQLResponse`, of which
only `data.search.edges` is read. -/
inductive EnrichResponse where
  | transportFailure
  | httpError (message : String)
  | parseError
  | success (edges : List Edge)
deriving DecidableEq

/-- Whether the enrichment outcome is one of the three failure modes. -/
def enrichFailed : EnrichResponse → Bool
  | EnrichResponse.success _ => false
  | _ => true

/-- `starMap` construction (src/main.ts lines 151-154):
`edges.forEach(edge => starMap.set(edge.node.nameWithOwner,
edge.node.stargazerCount))`. -/
def buildStarMap (edges : List Edge) : List (String × Int) :=
  edges.foldl (fun m e => mapSet m e.nameWithOwner e.stargazerCount) []

/-- The body of the `repos.map` callback (src/main.ts lines 156-163): look
the repository's `full_name` up in `starMap`; if found, spread-copy the
record with the fresh `stargazers_count`, else return the record as is. -/
def applyStar (starMap : List (String × Int)) (repo : Repository) : Repository :=
  match mapGet starMap repo.full_name with
  | some c => { repo with stargazers_count := c }
  | none => repo

/-- `enrichWithStarCount` (src/main.ts lines 108-176): short-circuits to
`[]` on empty input before any request; on any failure (transport,
non-success status, parse) returns the original `repos`; on success maps
`applyStar` over the input. -/
def enrichWithStarCount (repos : List Repository) (resp : EnrichResponse) :
    List Repository :=
  if repos.length = 0 then []
  else
    match resp with
    | EnrichResponse.success edges => repos.map (applyStar (buildStarMap edges))
    | _ => repos

/-! ## Filter and report (src/main.ts lines 41 and 178-185) -/

/-- The filter stage (src/main.ts line 41):
`reposWithStars.filter(repo => repo.stargazers_count >= 100)`. -/
def filterByStars (repos : List Repository) : List Repository :=
  repos.filter (fun repo => 100 ≤ repo.stargazers_count)

/-- Insert one record into an already-sorted (descending) list, before the
first element whose star count does not exceed it.  Used to express the
stable descending sort performed by `repos.sort((a, b) =>
b.stargazers_count - a.stargazers_count)`. -/
def insertDesc (r : Repository) : List Repository → List Repository
  | [] => [r]
  | x :: xs =>
    if x.stargazers_count ≤ r.stargazers_count then r :: x :: xs
    else x :: insertDesc r xs

/-- The sort of `printResults` (src/main.ts line 180).
`Array.prototype.sort` is required to be stable (ECMAScript 2019 and
later, which V8/Deno implement), and a stable sort for a fixed total
preorder is extensionally unique, so this stable insertion sort computes
exactly the array produced by the source's comparator. -/
def sortByStars : List Repository → List Repository
  | [] => []
  | r :: rs => insertDesc r (sortByStars rs)

/-- The two console lines per record of the `forEach` in `printResults`
(src/main.ts lines 181-184), with the 1-based rank. -/
def renderLines : Nat → List Repository → List String
  | _, [] => []
  | i, r :: rs =>
    (toString (i + 1) ++ ". " ++ r.full_name ++ " - " ++
        toString r.stargazers_count ++ "★") ::
      ("   URL: " ++ r.html_url) :: renderLines (i + 1) rs

/-- `printResults` (src/main.ts lines 178-185).  `Array.prototype.sort`
sorts the array IN PLACE and returns the same array object, so after the
call the caller's array holds the sorted sequence.  The first component is
the content of the caller's array after `printResults` returns; the second
is the console output. -/
def printResults (repos : List Repository) : List Repository × List String :=
  let sorted := sortByStars repos
  (sorted, renderLines 0 sorted)

/-! ## Concrete records used by witnesses and counterexamples -/

/-- A concrete repository record, star count 5. -/
def repoA : Repository :=
  { id := 1, name := "a", full_name := "a/a", stargazers_count := 5,
    html_url := "https://github.com/a/a" }

/-- A second concrete repository record, star count 5. -/
def repoB : Repository :=
  { id := 2, name := "b", full_name := "b/b", stargazers_count := 5,
    html_url := "https://github.com/b/b" }

/-- A concrete repository record with exactly 100 stars. -/
def repo100 : Repository :=
  { id := 3, name := "c", full_name := "c/c", stargazers_count := 100,
    html_url := "https://github.com/c/c" }

/-- A concrete repository record with exactly 99 stars. -/
def repo99 : Repository :=
  { id := 4, name := "d", full_name := "d/d", stargazers_count := 99,
    html_url := "https://github.com/d/d" }

/-- A concrete enrichment edge reporting 42 stars for `a/a`. -/
def edgeA : Edge := { nameWithOwner := "a/a", stargazerCount := 42 }

/-! ## Enrichment helper lemmas -/

/-- On a successful response the empty-input guard is redundant: the
result is the map of `applyStar` over the input in every case. -/
lemma enrich_success_eq (repos : List Repository) (edges : List Edge) :
    enrichWithStarCount repos (EnrichResponse.success edges) =
      repos.map (applyStar (buildStarMap edges)) := by
  cases repos with
  | nil => rfl
  | cons r rs => rfl

/-- On any of the three failure modes the input comes back unchanged. -/
lemma enrich_failed_eq (repos : List Repository) (resp : EnrichResponse)
    (h : enrichFailed resp = true) :
    enrichWithStarCount repos resp = repos := by
  cases resp
  case success edges => exact absurd h (by simp [enrichFailed])
  all_goals cases repos <;> rfl

/-- Enrichment preserves the length of the input on every outcome. -/
lemma enrich_length (repos : List Repository) (resp : EnrichResponse) :
    (enrichWithStarCount repos resp).length = repos.length := by
  cases resp with
  | success edges => rw [enrich_success_eq]; exact List.length_map _ _
  | transportFailure => rw [enrich_failed_eq _ EnrichResponse.transportFailure rfl]
  | httpError msg => rw [enrich_failed_eq _ (EnrichResponse.httpError msg) rfl]
  | parseError => rw [enrich_failed_eq _ EnrichResponse.parseError rfl]

/-- `applyStar` touches only `stargazers_count`. -/
lemma applyStar_fields (m : List (String × Int)) (r : Repository) :
    (applyStar m r).id = r.id ∧ (applyStar m r).name = r.name ∧
      (applyStar m r).full_name = r.full_name ∧
      (applyStar m r).html_url = r.html_url := by
  unfold applyStar
  cases mapGet m r.full_name <;> exact ⟨rfl, rfl, rfl, rfl⟩

/-- Positional formula for the successful enrichment output. -/
lemma enrich_get (repos : List Repository) (edges : List Edge) (i : Nat)
    (hi : i < repos.length)
    (ho : i < (enrichWithStarCount repos (EnrichResponse.success edges)).length) :
    (enrichWithStarCount repos (EnrichResponse.success edges)).get ⟨i, ho⟩ =
      applyStar (buildStarMap edges) (repos.get ⟨i, hi⟩) := by
  simp only [List.get_eq_getElem, enrich_success_eq, List.getElem_map]

/-! ## Claim C1 -/

/-- Claim C1: for every non-empty input, if the enrichment request ends in
a transport failure, a non-success HTTP status, or a parsing error, then
`enrichWithStarCount` returns exactly the original input records,
unmodified in values and order (and, being a total function of the
response outcome, it throws nothing past its own boundary). -/
theorem C1_enrich_failure_returns_input (repos : List Repository)
    (resp : EnrichResponse) (_hne : repos ≠ [])
    (hfail : enrichFailed resp = true) :
    enrichWithStarCount repos resp = repos :=
  enrich_failed_eq repos resp hfail

/-- Witness for C1 at a concrete non-empty input and a non-success
status. -/
theorem C1_enrich_failure_returns_input_witness :
    enrichWithStarCount [repoA, repoB] (EnrichResponse.httpError "bad") =
      [repoA, repoB] :=
  C1_enrich_failure_returns_input [repoA, repoB]
    (EnrichResponse.httpError "bad") (by simp) rfl

/-! ## Claim C7 -/

/-- Claim C7: the filter stage keeps exactly the records with
`stargazers_count ≥ 100`, in their original order (the kept records form
a sublist of the input); a record with exactly 100 stars passes and one
with 99 does not. -/
theorem C7_filter_threshold (repos : List Repository) (r : Repository) :
    (r ∈ filterByStars repos ↔ r ∈ repos ∧ 100 ≤ r.stargazers_count) ∧
      (filterByStars repos).Sublist repos ∧
      repo100 ∈ filterByStars [repo100, repo99] ∧
      repo99 ∉ filterByStars [repo100, repo99] := by
  refine ⟨?_, List.filter_sublist repos, by decide, by decide⟩
  simp [filterByStars, List.mem_filter]

/-- Witness for C7 at a concrete input. -/
theorem C7_filter_threshold_witness :
    (repo100 ∈ filterByStars [repo100, repo99] ↔
        repo100 ∈ [repo100, repo99] ∧ 100 ≤ repo100.stargazers_count) ∧
      (filterByStars [repo100, repo99]).Sublist [repo100, repo99] ∧
      repo100 ∈ filterByStars [repo100, repo99] ∧
      repo99 ∉ filterByStars [repo100, repo99] :=
  C7_filter_threshold [repo100, repo99] repo100

/-! ## Claims C3, C4, C9 -/

/-- Claim C3: on a successful enrichment response, a record whose
`full_name` is not a key of the lookup built from the edges comes out
unchanged, and a record whose `full_name` is a key comes out with its
`stargazers_count` replaced by the looked-up value. -/
theorem C3_enrich_partial_match (repos : List Repository) (edges : List Edge)
    (i : Nat) (hi : i < repos.length)
    (ho : i < (enrichWithStarCount repos (EnrichResponse.success edges)).length) :
    (mapGet (buildStarMap edges) (repos.get ⟨i, hi⟩).full_name = none →
        (enrichWithStarCount repos (EnrichResponse.success edges)).get ⟨i, ho⟩ =
          repos.get ⟨i, hi⟩) ∧
      ∀ c : Int,
        mapGet (buildStarMap edges) (repos.get ⟨i, hi⟩).full_name = some c →
          (enrichWithStarCount repos (EnrichResponse.success edges)).get ⟨i, ho⟩ =
            { repos.get ⟨i, hi⟩ with stargazers_count := c } := by
  rw [enrich_get repos edges i hi ho]
  constructor
  · intro hnone
    unfold applyStar
    rw [hnone]
  · intro c hsome
    unfold applyStar
    rw [hsome]

/-- Witness for C3: records `a/a` (matched, 5 → 42) and `b/b` (unmatched,
stays 5) against a response carrying only `a/a → 42`; both branches of the
theorem are exercised, one per record. -/
theorem C3_enrich_partial_match_witness :
    ((mapGet (buildStarMap [edgeA]) (([repoA, repoB].get ⟨0, by decide⟩)).full_name = none →
        (enrichWithStarCount [repoA, repoB] (EnrichResponse.success [edgeA])).get
            ⟨0, by decide⟩ = [repoA, repoB].get ⟨0, by decide⟩) ∧
      ∀ c : Int,
        mapGet (buildStarMap [edgeA]) (([repoA, repoB].get ⟨0, by decide⟩)).full_name = some c →
          (enrichWithStarCount [repoA, repoB] (EnrichResponse.success [edgeA])).get
              ⟨0, by decide⟩ =
            { [repoA, repoB].get ⟨0, by decide⟩ with stargazers_count := c }) ∧
      ((mapGet (buildStarMap [edgeA]) (([repoA, repoB].get ⟨1, by decide⟩)).full_name = none →
        (enrichWithStarCount [repoA, repoB] (EnrichResponse.success [edgeA])).get
            ⟨1, by decide⟩ = [repoA, repoB].get ⟨1, by decide⟩) ∧
      ∀ c : Int,
        mapGet (buildStarMap [edgeA]) (([repoA, repoB].get ⟨1, by decide⟩)).full_name = some c →
          (enrichWithStarCount [repoA, repoB] (EnrichResponse.success [edgeA])).get
              ⟨1, by decide⟩ =
            { [repoA, repoB].get ⟨1, by decide⟩ with stargazers_count := c }) :=
  ⟨C3_enrich_partial_match [repoA, repoB] [edgeA] 0 (by decide) (by decide),
    C3_enrich_partial_match [repoA, repoB] [edgeA] 1 (by decide) (by decide)⟩

/-- Claim C4: on every outcome (success, any failure, or the empty-input
short-circuit) the enrichment output has the same length as the input, the
record at each position carries the id of the input record at that
position, and every output record's id occurs among the input ids. -/
theorem C4_enrich_shape (repos : List Repository) (resp : EnrichResponse) :
    (enrichWithStarCount repos resp).length = repos.length ∧
      (∀ (i : Nat) (hi : i < repos.length)
          (ho : i < (enrichWithStarCount repos resp).length),
        ((enrichWithStarCount repos resp).get ⟨i, ho⟩).id =
          (repos.get ⟨i, hi⟩).id) ∧
      ∀ r, r ∈ enrichWithStarCount repos resp → ∃ s, s ∈ repos ∧ s.id = r.id := by
  refine ⟨enrich_length repos resp, ?_, ?_⟩
  · intro i hi ho
    cases resp with
    | success edges =>
      rw [enrich_get repos edges i hi ho]
      exact (applyStar_fields _ _).1
    | transportFailure =>
      simp only [List.get_eq_getElem,
        enrich_failed_eq _ EnrichResponse.transportFailure rfl]
    | httpError msg =>
      simp only [List.get_eq_getElem,
        enrich_failed_eq _ (EnrichResponse.httpError msg) rfl]
    | parseError =>
      simp only [List.get_eq_getElem,
        enrich_failed_eq _ EnrichResponse.parseError rfl]
  · intro r hr
    cases resp with
    | success edges =>
      rw [enrich_success_eq] at hr
      obtain ⟨s, hs, hsr⟩ := List.mem_map.1 hr
      exact ⟨s, hs, by rw [← hsr]; exact ((applyStar_fields _ s).1).symm⟩
    | transportFailure =>
      rw [enrich_failed_eq _ EnrichResponse.transportFailure rfl] at hr
      exact ⟨r, hr, rfl⟩
    | httpError msg =>
      rw [enrich_failed_eq _ (EnrichResponse.httpError msg) rfl] at hr
      exact ⟨r, hr, rfl⟩
    | parseError =>
      rw [enrich_failed_eq _ EnrichResponse.parseError rfl] at hr
      exact ⟨r, hr, rfl⟩

/-- Witness for C4 at a concrete input and response: length, the
positional id at index 0, and the no-new-ids property, instantiated. -/
theorem C4_enrich_shape_witness :
    (enrichWithStarCount [repoA] (EnrichResponse.success [edgeA])).length =
        [repoA].length ∧
      (∀ (i : Nat) (hi : i < [repoA].length)
          (ho : i < (enrichWithStarCount [repoA] (EnrichResponse.success [edgeA])).length),
        ((enrichWithStarCount [repoA] (EnrichResponse.success [edgeA])).get ⟨i, ho⟩).id =
          ([repoA].get ⟨i, hi⟩).id) ∧
      ∀ r, r ∈ enrichWithStarCount [repoA] (EnrichResponse.success [edgeA]) →
        ∃ s, s ∈ [repoA] ∧ s.id = r.id :=
  C4_enrich_shape [repoA] (EnrichResponse.success [edgeA])

/-- Claim C9: on every outcome, each output record differs from the input
record at its position at most in `stargazers_count`: its `id`, `name`,
`full_name` and `html_url` equal those of the input record, and (lengths
being equal) no new record is introduced. -/
theorem C9_enrich_frame (repos : List Repository) (resp : EnrichResponse)
    (i : Nat) (hi : i < repos.length)
    (ho : i < (enrichWithStarCount repos resp).length) :
    (enrichWithStarCount repos resp).length = repos.length ∧
      ((enrichWithStarCount repos resp).get ⟨i, ho⟩).id = (repos.get ⟨i, hi⟩).id ∧
      ((enrichWithStarCount repos resp).get ⟨i, ho⟩).name = (repos.get ⟨i, hi⟩).name ∧
      ((enrichWithStarCount repos resp).get ⟨i, ho⟩).full_name =
        (repos.get ⟨i, hi⟩).full_name ∧
      ((enrichWithStarCount repos resp).get ⟨i, ho⟩).html_url =
        (repos.get ⟨i, hi⟩).html_url := by
  refine ⟨enrich_length repos resp, ?_⟩
  cases resp with
  | success edges =>
    rw [enrich_get repos edges i hi ho]
    obtain ⟨h1, h2, h3, h4⟩ := applyStar_fields (buildStarMap edges) (repos.get ⟨i, hi⟩)
    exact ⟨h1, h2, h3, h4⟩
  | transportFailure =>
    simp [List.get_eq_getElem,
      enrich_failed_eq _ EnrichResponse.transportFailure rfl]
  | httpError msg =>
    simp [List.get_eq_getElem,
      enrich_failed_eq _ (EnrichResponse.httpError msg) rfl]
  | parseError =>
    simp [List.get_eq_getElem,
      enrich_failed_eq _ EnrichResponse.parseError rfl]

/-- Witness for C9 at a concrete input, a matched record and index 0. -/
theorem C9_enrich_frame_witness :
    (enrichWithStarCount [repoA] (EnrichResponse.success [edgeA])).length =
        [repoA].length ∧
      ((enrichWithStarCount [repoA] (EnrichResponse.success [edgeA])).get
          ⟨0, by decide⟩).id = ([repoA].get ⟨0, by decide⟩).id ∧
      ((enrichWithStarCount [repoA] (EnrichResponse.success [edgeA])).get
          ⟨0, by decide⟩).name = ([repoA].get ⟨0, by decide⟩).name ∧
      ((enrichWithStarCount [repoA] (EnrichResponse.success [edgeA])).get
          ⟨0, by decide⟩).full_name = ([repoA].get ⟨0, by decide⟩).full_name ∧
      ((enrichWithStarCount [repoA] (EnrichResponse.success [edgeA])).get
          ⟨0, by decide⟩).html_url = ([repoA].get ⟨0, by decide⟩).html_url :=
  C9_enrich_frame [repoA] (EnrichResponse.success [edgeA]) 0 (by decide) (by decide)

/-! ## Sort helper lemmas -/

/-- Inserting is a permutation of consing. -/
lemma insertDesc_perm (r : Repository) (l : List Repository) :
    (insertDesc r l).Perm (r :: l) := by
  induction l with
  | nil => exact List.Perm.refl _
  | cons x xs ih =>
    unfold insertDesc
    by_cases h : x.stargazers_count ≤ r.stargazers_count
    · rw [if_pos h]
    · rw [if_neg h]
      exact (ih.cons x).trans (List.Perm.swap r x xs)

/-- The stable insertion sort permutes its input. -/
lemma sortByStars_perm (l : List Repository) : (sortByStars l).Perm l := by
  induction l with
  | nil => exact List.Perm.refl _
  | cons r rs ih => exact (insertDesc_perm r (sortByStars rs)).trans (ih.cons r)

/-- Membership in an insertion. -/
lemma mem_insertDesc {y r : Repository} {l : List Repository} :
    y ∈ insertDesc r l ↔ y = r ∨ y ∈ l := by
  rw [(insertDesc_perm r l).mem_iff, List.mem_cons]

/-- Inserting into a descending list keeps it descending. -/
lemma pairwise_insertDesc (r : Repository) (l : List Repository)
    (h : List.Pairwise (fun a b => b.stargazers_count ≤ a.stargazers_count) l) :
    List.Pairwise (fun a b => b.stargazers_count ≤ a.stargazers_count)
      (insertDesc r l) := by
  induction l with
  | nil => simp [insertDesc]
  | cons x xs ih =>
    rcases List.pairwise_cons.1 h with ⟨hx, hxs⟩
    unfold insertDesc
    by_cases hc : x.stargazers_count ≤ r.stargazers_count
    · rw [if_pos hc]
      refine List.pairwise_cons.2 ⟨?_, h⟩
      intro y hy
      rcases List.mem_cons.1 hy with hy | hy
      · rw [hy]; exact hc
      · exact le_trans (hx y hy) hc
    · rw [if_neg hc]
      refine List.pairwise_cons.2 ⟨?_, ih hxs⟩
      intro y hy
      rcases mem_insertDesc.1 hy with hy | hy
      · rw [hy]; exact le_of_lt (lt_of_not_le hc)
      · exact hx y hy

/-- The sort's output is descending in star count. -/
lemma sortByStars_sorted (l : List Repository) :
    List.Pairwise (fun a b => b.stargazers_count ≤ a.stargazers_count)
      (sortByStars l) := by
  induction l with
  | nil => simp [sortByStars]
  | cons r rs ih => exact pairwise_insertDesc r (sortByStars rs) ih

/-- The elements passed over by an insertion all have strictly more stars
than the inserted record, so filtering on any fixed star count commutes
with the insertion. -/
lemma filter_insertDesc (c : Int) (r : Repository) (l : List Repository) :
    (insertDesc r l).filter (fun x => decide (x.stargazers_count = c)) =
      if r.stargazers_count = c then
        r :: l.filter (fun x => decide (x.stargazers_count = c))
      else l.filter (fun x => decide (x.stargazers_count = c)) := by
  induction l with
  | nil =>
    by_cases hr : r.stargazers_count = c <;>
      simp [insertDesc, List.filter, hr]
  | cons x xs ih =>
    unfold insertDesc
    by_cases hc : x.stargazers_count ≤ r.stargazers_count
    · rw [if_pos hc]
      by_cases hr : r.stargazers_count = c <;>
        simp [List.filter_cons, hr]
    · rw [if_neg hc]
      have hxr : r.stargazers_count < x.stargazers_count := lt_of_not_le hc
      by_cases hr : r.stargazers_count = c
      · have hx : ¬ x.stargazers_count = c := by
          intro hxc
          rw [hr] at hxr
          rw [hxc] at hxr
          exact lt_irrefl c hxr
        simp [List.filter_cons, hx, ih, hr]
      · by_cases hx : x.stargazers_count = c <;>
          simp [List.filter_cons, hx, ih, hr]

/-- Stability of the sort: the records carrying any fixed star count
appear in the output exactly in their original relative order. -/
lemma sortByStars_stable (c : Int) (l : List Repository) :
    (sortByStars l).filter (fun x => decide (x.stargazers_count = c)) =
      l.filter (fun x => decide (x.stargazers_count = c)) := by
  induction l with
  | nil => rfl
  | cons r rs ih =>
    unfold sortByStars
    rw [filter_insertDesc, ih]
    by_cases hr : r.stargazers_count = c <;>
      simp [List.filter_cons, hr]

/-! ## Concrete records for the sort example -/

/-- Concrete record, 50 stars (position 1 of the sort example). -/
def sortEx50 : Repository :=
  { id := 11, name := "e", full_name := "e/e", stargazers_count := 50,
    html_url := "https://github.com/e/e" }

/-- Concrete record, 200 stars, first of the tie (position 2). -/
def sortEx200a : Repository :=
  { id := 12, name := "f", full_name := "f/f", stargazers_count := 200,
    html_url := "https://github.com/f/f" }

/-- Concrete record, 200 stars, second of the tie (position 3). -/
def sortEx200b : Repository :=
  { id := 13, name := "g", full_name := "g/g", stargazers_count := 200,
    html_url := "https://github.com/g/g" }

/-- Concrete record, 10 stars (position 4 of the sort example). -/
def sortEx10 : Repository :=
  { id := 14, name := "h", full_name := "h/h", stargazers_count := 10,
    html_url := "https://github.com/h/h" }

/-! ## Claims C8 and C10 -/

/-- Claim C8: the report stage's sort is a reordering of its input that is
descending in star count, records of equal star count keep their original
relative order (stability, stated as filter-invariance for each star
count), and on star counts 50, 200, 200, 10 the order is the two 200-star
records in original relative order, then 50, then 10. -/
theorem C8_sort_stable_desc (repos : List Repository) :
    (sortByStars repos).Perm repos ∧
      List.Pairwise (fun a b => b.stargazers_count ≤ a.stargazers_count)
        (sortByStars repos) ∧
      (∀ c : Int,
        (sortByStars repos).filter (fun x => decide (x.stargazers_count = c)) =
          repos.filter (fun x => decide (x.stargazers_count = c))) ∧
      sortByStars [sortEx50, sortEx200a, sortEx200b, sortEx10] =
        [sortEx200a, sortEx200b, sortEx50, sortEx10] :=
  ⟨sortByStars_perm repos, sortByStars_sorted repos,
    fun c => sortByStars_stable c repos, by decide⟩

/-- Witness for C8 at the concrete four-record example. -/
theorem C8_sort_stable_desc_witness :
    (sortByStars [sortEx50, sortEx200a, sortEx200b, sortEx10]).Perm
        [sortEx50, sortEx200a, sortEx200b, sortEx10] ∧
      List.Pairwise (fun a b => b.stargazers_count ≤ a.stargazers_count)
        (sortByStars [sortEx50, sortEx200a, sortEx200b, sortEx10]) ∧
      (∀ c : Int,
        (sortByStars [sortEx50, sortEx200a, sortEx200b, sortEx10]).filter
            (fun x => decide (x.stargazers_count = c)) =
          [sortEx50, sortEx200a, sortEx200b, sortEx10].filter
            (fun x => decide (x.stargazers_count = c))) ∧
      sortByStars [sortEx50, sortEx200a, sortEx200b, sortEx10] =
        [sortEx200a, sortEx200b, sortEx50, sortEx10] :=
  C8_sort_stable_desc [sortEx50, sortEx200a, sortEx200b, sortEx10]

/-- Claim C10: `printResults` sorts the caller's array in place
(`Array.prototype.sort` mutates the array object it is called on), so
after the call the caller's array holds a reordering of what was passed,
descending by star count; on the concrete unsorted input
`[repo99, repo100]` the caller's array afterwards is `[repo100, repo99]`,
which differs from the sequence passed in. -/
theorem C10_print_mutates_input (repos : List Repository) :
    (printResults repos).1.Perm repos ∧
      List.Pairwise (fun a b => b.stargazers_count ≤ a.stargazers_count)
        (printResults repos).1 ∧
      (printResults [repo99, repo100]).1 = [repo100, repo99] ∧
      (printResults [repo99, repo100]).1 ≠ [repo99, repo100] :=
  ⟨sortByStars_perm repos, sortByStars_sorted repos, by decide, by decide⟩

/-- Witness for C10 at the concrete two-record unsorted input. -/
theorem C10_print_mutates_input_witness :
    (printResults [repo99, repo100]).1.Perm [repo99, repo100] ∧
      List.Pairwise (fun a b => b.stargazers_count ≤ a.stargazers_count)
        (printResults [repo99, repo100]).1 ∧
      (printResults [repo99, repo100]).1 = [repo100, repo99] ∧
      (printResults [repo99, repo100]).1 ≠ [repo99, repo100] :=
  C10_print_mutates_input [repo99, repo100]

/-! ## Map and deduplication helper lemmas -/

/-- `Map.get` after `Map.set` at the same key sees the new value. -/
lemma mapGet_mapSet_self {α β : Type} [DecidableEq α]
    (m : List (α × β)) (k : α) (v : β) :
    mapGet (mapSet m k v) k = some v := by
  induction m with
  | nil => simp [mapSet, mapGet]
  | cons p m ih =>
    obtain ⟨k₀, v₀⟩ := p
    by_cases h : k₀ = k <;> simp [mapSet, mapGet, h, ih]

/-- `Map.get` after `Map.set` at a different key is unchanged. -/
lemma mapGet_mapSet_ne {α β : Type} [DecidableEq α]
    (m : List (α × β)) (k k₁ : α) (v : β) (h : k ≠ k₁) :
    mapGet (mapSet m k v) k₁ = mapGet m k₁ := by
  induction m with
  | nil => simp [mapSet, mapGet, h]
  | cons p m ih =>
    obtain ⟨k₀, v₀⟩ := p
    by_cases h₀ : k₀ = k
    · subst h₀
      simp [mapSet, mapGet, h]
    · by_cases h₁ : k₀ = k₁ <;> simp [mapSet, mapGet, h₀, h₁, Ne.symm h, ih]

/-- `Map.set` grows the map by one entry exactly when the key is new. -/
lemma length_mapSet {α β : Type} [DecidableEq α]
    (m : List (α × β)) (k : α) (v : β) :
    (mapSet m k v).length =
      if (mapGet m k).isSome then m.length else m.length + 1 := by
  induction m with
  | nil => simp [mapSet, mapGet]
  | cons p m ih =>
    obtain ⟨k₀, v₀⟩ := p
    by_cases h : k₀ = k
    · simp [mapSet, mapGet, h]
    · simp only [mapSet, if_neg h, mapGet, List.length_cons, ih]
      cases mapGet m k <;> simp [h]

/-- Processing a batch of items splits at a trailing item. -/
lemma processItems_concat (m : List (Int × Repository))
    (items : List CodeSearchResultItem) (it : CodeSearchResultItem) :
    processItems m (items ++ [it]) =
      mapSet (processItems m items) it.repository.id it.repository := by
  simp [processItems, List.foldl_append]

/-- Processing a concatenation of batches is processing them in turn. -/
lemma processItems_append (m : List (Int × Repository))
    (items₁ items₂ : List CodeSearchResultItem) :
    processItems m (items₁ ++ items₂) =
      processItems (processItems m items₁) items₂ := by
  simp [processItems, List.foldl_append]

/-- The repository payload of the last item of `items` whose embedded
repository id is `i` (the spec's last-seen payload for that id), `none`
when no item carries the id. -/
def lastSeenPayload (items : List CodeSearchResultItem) (i : Int) :
    Option Repository :=
  ((items.filter (fun it => decide (it.repository.id = i))).map
      (fun it => it.repository)).getLast?

/-- The deduplication map stores, for each id, the payload of the last
item seen carrying that id. -/
lemma mapGet_processItems (items : List CodeSearchResultItem) (i : Int) :
    mapGet (processItems [] items) i = lastSeenPayload items i := by
  induction items using List.reverseRecOn with
  | nil => rfl
  | append_singleton items it ih =>
    rw [processItems_concat]
    by_cases h : it.repository.id = i
    · rw [h, mapGet_mapSet_self]
      unfold lastSeenPayload
      rw [List.filter_append]
      simp [h]
    · rw [mapGet_mapSet_ne _ _ _ _ h, ih]
      unfold lastSeenPayload
      rw [List.filter_append]
      simp [h]

/-- An id has a last-seen payload exactly when some item carries it. -/
lemma lastSeenPayload_isSome (items : List CodeSearchResultItem) (i : Int) :
    (lastSeenPayload items i).isSome = true ↔
      i ∈ items.map (fun it => it.repository.id) := by
  unfold lastSeenPayload
  constructor
  · intro hs
    rw [Option.isSome_iff_ne_none] at hs
    simp only [ne_eq, List.getLast?_eq_none_iff, List.map_eq_nil_iff,
      List.filter_eq_nil_iff, not_forall] at hs
    obtain ⟨it, hit, hid⟩ := hs
    simp only [decide_eq_true_eq, not_not] at hid
    exact List.mem_map.2 ⟨it, hit, hid⟩
  · intro h
    obtain ⟨it, hit, hid⟩ := List.mem_map.1 h
    rw [Option.isSome_iff_ne_none]
    simp only [ne_eq, List.getLast?_eq_none_iff, List.map_eq_nil_iff,
      List.filter_eq_nil_iff, not_forall]
    exact ⟨it, hit, by simp [hid]⟩

/-- The deduplication map has one entry per distinct id seen. -/
lemma length_processItems (items : List CodeSearchResultItem) :
    (processItems [] items).length =
      (items.map (fun it => it.repository.id)).toFinset.card := by
  induction items using List.reverseRecOn with
  | nil => rfl
  | append_singleton items it ih =>
    rw [processItems_concat, length_mapSet, mapGet_processItems,
      List.map_append, List.toFinset_append]
    simp only [List.map_cons, List.map_nil, List.toFinset_cons, List.toFinset_nil]
    rw [Finset.union_comm]
    by_cases h : it.repository.id ∈ items.map (fun it => it.repository.id)
    · have hs : (lastSeenPayload items it.repository.id).isSome = true :=
        (lastSeenPayload_isSome _ _).2 h
      rw [hs, if_pos rfl, ih, Finset.insert_union, Finset.empty_union,
        Finset.insert_eq_self.2 (List.mem_toFinset.2 h)]
    · have hs : (lastSeenPayload items it.repository.id).isSome = false := by
        cases hx : (lastSeenPayload items it.repository.id).isSome with
        | false => rfl
        | true => exact absurd ((lastSeenPayload_isSome _ _).1 hx) h
      rw [hs]
      simp only [Bool.false_eq_true, if_false, ih]
      rw [Finset.insert_union, Finset.empty_union,
        Finset.card_insert_of_not_mem (fun hc => h (List.mem_toFinset.1 hc))]

/-! ## Concrete discovery items and page oracles -/

/-- `repoA` as last seen: same id 1, 42 stars. -/
def repoA42 : Repository :=
  { id := 1, name := "a", full_name := "a/a", stargazers_count := 42,
    html_url := "https://github.com/a/a" }

/-- A discovery item embedding `repoA`. -/
def itemA : CodeSearchResultItem :=
  { name := "x.ts", path := "src/x.ts", repository := repoA,
    html_url := "https://github.com/a/a/x.ts" }

/-- A later discovery item re-seeing id 1 with a different payload. -/
def itemA42 : CodeSearchResultItem :=
  { name := "y.ts", path := "src/y.ts", repository := repoA42,
    html_url := "https://github.com/a/a/y.ts" }

/-- A discovery item embedding `repoB` (id 2). -/
def itemB : CodeSearchResultItem :=
  { name := "z.ts", path := "src/z.ts", repository := repoB,
    html_url := "https://github.com/b/b/z.ts" }

/-- A page oracle: page 1 succeeds with one item, page 2 has a malformed
body. -/
def pagesThenMalformed : Nat → PageResponse :=
  fun p => if p = 1 then PageResponse.success [itemA] else PageResponse.malformed

/-- A page oracle on which every page succeeds (with no items). -/
def pagesAllOk : Nat → PageResponse :=
  fun _ => PageResponse.success []

/-! ## Fetch-loop unfolding lemmas -/

/-- A successful page: merge its items, sleep, continue with the rest. -/
lemma fetchGo_success (pages : Nat → PageResponse) (rest : List Nat)
    (page : Nat) (m : List (Int × Repository))
    (items : List CodeSearchResultItem)
    (h : pages page = PageResponse.success items) :
    fetchGo pages (page :: rest) m =
      ((fetchGo pages rest (processItems m items)).1,
        Effect.fetchPage page :: Effect.delay ::
          (fetchGo pages rest (processItems m items)).2) := by
  simp [fetchGo, h]

/-- A non-success response: break out of the loop with the map so far. -/
lemma fetchGo_httpError (pages : Nat → PageResponse) (rest : List Nat)
    (page : Nat) (m : List (Int × Repository)) (msg : String)
    (h : pages page = PageResponse.httpError msg) :
    fetchGo pages (page :: rest) m = (Except.ok m, [Effect.fetchPage page]) := by
  simp [fetchGo, h]

/-- A malformed body: `response.json()` rejects and the exception escapes
the loop (and the function), losing the map built so far. -/
lemma fetchGo_malformed (pages : Nat → PageResponse) (rest : List Nat)
    (page : Nat) (m : List (Int × Repository))
    (h : pages page = PageResponse.malformed) :
    fetchGo pages (page :: rest) m =
      (Except.error RunError.parse, [Effect.fetchPage page]) := by
  simp [fetchGo, h]

/-! ## Claim C5 -/

/-- Claim C5: the deduplication map built by the discovery run has one
entry per distinct repository id among the processed items, the record
stored for an id is the payload of the last-seen item carrying it, and on
a run whose three pages all succeed `fetchRepositories` indeed returns the
values of the map built from the concatenated page items. -/
theorem C5_dedup_last_write_wins (items : List CodeSearchResultItem) :
    (processItems [] items).length =
        (items.map (fun it => it.repository.id)).toFinset.card ∧
      (∀ i : Int, mapGet (processItems [] items) i = lastSeenPayload items i) ∧
      ∀ (pages : Nat → PageResponse) (i₁ i₂ i₃ : List CodeSearchResultItem),
        pages 1 = PageResponse.success i₁ →
        pages 2 = PageResponse.success i₂ →
        pages 3 = PageResponse.success i₃ →
        fetchRepositories pages =
          Except.ok ((processItems [] (i₁ ++ i₂ ++ i₃)).map Prod.snd) := by
  refine ⟨length_processItems items, fun i => mapGet_processItems items i, ?_⟩
  intro pages i₁ i₂ i₃ h1 h2 h3
  unfold fetchRepositories fetchRun
  rw [fetchGo_success pages [2, 3] 1 [] i₁ h1,
    fetchGo_success pages [3] 2 (processItems [] i₁) i₂ h2,
    fetchGo_success pages [] 3 (processItems (processItems [] i₁) i₂) i₃ h3,
    processItems_append, processItems_append]
  rfl

/-- Witness for C5: two items sharing id 1 (the later carries 42 stars)
followed by a distinct id 2; the map has two entries, id 1 stores the
last-seen payload, and a concrete all-success run returns them. -/
theorem C5_dedup_last_write_wins_witness :
    (processItems [] [itemA, itemA42, itemB]).length =
        (([itemA, itemA42, itemB].map (fun it => it.repository.id)).toFinset).card ∧
      (∀ i : Int, mapGet (processItems [] [itemA, itemA42, itemB]) i =
        lastSeenPayload [itemA, itemA42, itemB] i) ∧
      ∀ (pages : Nat → PageResponse) (i₁ i₂ i₃ : List CodeSearchResultItem),
        pages 1 = PageResponse.success i₁ →
        pages 2 = PageResponse.success i₂ →
        pages 3 = PageResponse.success i₃ →
        fetchRepositories pages =
          Except.ok ((processItems [] (i₁ ++ i₂ ++ i₃)).map Prod.snd) :=
  C5_dedup_last_write_wins [itemA, itemA42, itemB]

/-! ## Claim C2 -/

/-- A page oracle: page 1 succeeds with one item, page 2 answers with a
non-success HTTP status. -/
def pagesThenHttpError : Nat → PageResponse :=
  fun p =>
    if p = 1 then PageResponse.success [itemA]
    else PageResponse.httpError "API rate limit exceeded"

/-- Counterexample to claim C2 as stated: with page 1 succeeding and page
2 delivering a malformed response body, `fetchRepositories` does not
return the records collected from page 1 — the parse exception escapes to
the caller and the collected records are lost. -/
theorem C2_counterexample_malformed_throws :
    pagesThenMalformed 1 = PageResponse.success [itemA] ∧
      pagesThenMalformed 2 = PageResponse.malformed ∧
      fetchRepositories pagesThenMalformed = Except.error RunError.parse ∧
      ∀ l : List Repository, fetchRepositories pagesThenMalformed ≠ Except.ok l := by
  refine ⟨rfl, rfl, rfl, ?_⟩
  intro l h
  rw [show fetchRepositories pagesThenMalformed = Except.error RunError.parse
    from rfl] at h
  exact Except.noConfusion h

/-- Claim C2 as amended: a per-page NON-SUCCESS HTTP RESPONSE truncates
pagination, preserves the records collected from earlier pages and
propagates no error (the run returns normally); this covers a failure at
page 1, 2 or 3.  (A malformed response body instead throws out of
`fetchRepositories`, losing the collected records — see the
counterexample.) -/
theorem C2_httpError_truncates_keeps_earlier (pages : Nat → PageResponse) :
    (∀ msg, pages 1 = PageResponse.httpError msg →
        fetchRepositories pages = Except.ok []) ∧
      (∀ i₁ msg, pages 1 = PageResponse.success i₁ →
        pages 2 = PageResponse.httpError msg →
        fetchRepositories pages =
          Except.ok ((processItems [] i₁).map Prod.snd)) ∧
      ∀ i₁ i₂ msg, pages 1 = PageResponse.success i₁ →
        pages 2 = PageResponse.success i₂ →
        pages 3 = PageResponse.httpError msg →
        fetchRepositories pages =
          Except.ok ((processItems [] (i₁ ++ i₂)).map Prod.snd) := by
  refine ⟨?_, ?_, ?_⟩
  · intro msg h1
    unfold fetchRepositories fetchRun
    rw [fetchGo_httpError pages [2, 3] 1 [] msg h1]
    rfl
  · intro i₁ msg h1 h2
    unfold fetchRepositories fetchRun
    rw [fetchGo_success pages [2, 3] 1 [] i₁ h1,
      fetchGo_httpError pages [3] 2 (processItems [] i₁) msg h2]
    rfl
  · intro i₁ i₂ msg h1 h2 h3
    unfold fetchRepositories fetchRun
    rw [fetchGo_success pages [2, 3] 1 [] i₁ h1,
      fetchGo_success pages [3] 2 (processItems [] i₁) i₂ h2,
      fetchGo_httpError pages [] 3 (processItems (processItems [] i₁) i₂) msg h3,
      processItems_append]
    rfl

/-- Witness for the amended C2: a concrete run whose page 2 answers with
a non-success status returns exactly the page-1 records. -/
theorem C2_httpError_truncates_keeps_earlier_witness :
    fetchRepositories pagesThenHttpError =
      Except.ok ((processItems [] [itemA]).map Prod.snd) :=
  (C2_httpError_truncates_keeps_earlier pagesThenHttpError).2.1 [itemA]
    "API rate limit exceeded" rfl rfl

/-! ## Claim C6 -/

/-- Counterexample to claim C6 as stated: on a run where all 3 pages
succeed, the 1.5 s delay IS incurred after the final page request — the
effect trace ends with a delay following the page-3 fetch. -/
theorem C6_counterexample_delay_after_last_page :
    fetchTrace pagesAllOk =
        [Effect.fetchPage 1, Effect.delay, Effect.fetchPage 2, Effect.delay,
          Effect.fetchPage 3, Effect.delay] ∧
      (fetchTrace pagesAllOk).getLast? = some Effect.delay :=
  ⟨rfl, rfl⟩

/-- Claim C6 as amended: the fixed delay occurs after every successfully
processed page — which places it before each subsequent page request, but
also AFTER the final page when that page succeeds — and no delay follows a
page request that got a non-success response (the early-stop case). -/
theorem C6_delay_follows_each_success (pages : Nat → PageResponse) :
    (∀ i₁ i₂ i₃, pages 1 = PageResponse.success i₁ →
        pages 2 = PageResponse.success i₂ → pages 3 = PageResponse.success i₃ →
        fetchTrace pages =
          [Effect.fetchPage 1, Effect.delay, Effect.fetchPage 2, Effect.delay,
            Effect.fetchPage 3, Effect.delay]) ∧
      (∀ msg, pages 1 = PageResponse.httpError msg →
        fetchTrace pages = [Effect.fetchPage 1]) ∧
      (∀ i₁ msg, pages 1 = PageResponse.success i₁ →
        pages 2 = PageResponse.httpError msg →
        fetchTrace pages = [Effect.fetchPage 1, Effect.delay, Effect.fetchPage 2]) ∧
      ∀ i₁ i₂ msg, pages 1 = PageResponse.success i₁ →
        pages 2 = PageResponse.success i₂ →
        pages 3 = PageResponse.httpError msg →
        fetchTrace pages =
          [Effect.fetchPage 1, Effect.delay, Effect.fetchPage 2, Effect.delay,
            Effect.fetchPage 3] := by
  refine ⟨?_, ?_, ?_, ?_⟩
  · intro i₁ i₂ i₃ h1 h2 h3
    unfold fetchTrace fetchRun
    rw [fetchGo_success pages [2, 3] 1 [] i₁ h1,
      fetchGo_success pages [3] 2 (processItems [] i₁) i₂ h2,
      fetchGo_success pages [] 3 (processItems (processItems [] i₁) i₂) i₃ h3]
    rfl
  · intro msg h1
    unfold fetchTrace fetchRun
    rw [fetchGo_httpError pages [2, 3] 1 [] msg h1]
  · intro i₁ msg h1 h2
    unfold fetchTrace fetchRun
    rw [fetchGo_success pages [2, 3] 1 [] i₁ h1,
      fetchGo_httpError pages [3] 2 (processItems [] i₁) msg h2]
  · intro i₁ i₂ msg h1 h2 h3
    unfold fetchTrace fetchRun
    rw [fetchGo_success pages [2, 3] 1 [] i₁ h1,
      fetchGo_success pages [3] 2 (processItems [] i₁) i₂ h2,
      fetchGo_httpError pages [] 3 (processItems (processItems [] i₁) i₂) msg h3]

/-- Witness for the amended C6: the all-success trace, and the
early-stop trace with no trailing delay, at concrete page oracles. -/
theorem C6_delay_follows_each_success_witness :
    fetchTrace pagesAllOk =
        [Effect.fetchPage 1, Effect.delay, Effect.fetchPage 2, Effect.delay,
          Effect.fetchPage 3, Effect.delay] ∧
      fetchTrace pagesThenHttpError =
        [Effect.fetchPage 1, Effect.delay, Effect.fetchPage 2] :=
  ⟨(C6_delay_follows_each_success pagesAllOk).1 [] [] [] rfl rfl rfl,
    (C6_delay_follows_each_success pagesThenHttpError).2.2.1 [itemA]
      "API rate limit exceeded" rfl rfl⟩

end GithubScraper
